import Mathlib

/-
Verification of the Vision metrics aggregator (src/src/main.ts together with
the type declarations of src/unnamed/part_000).

Modelling conventions:
* JavaScript numbers are modelled as rationals (ℚ): every operation the
  aggregator performs on them (increment by 1, addition, subtraction,
  division by a nonzero count, multiplication by 100) is exact rational
  arithmetic on the values that occur.
* `new Date()` is modelled as an externally supplied clock value (a natural
  number) passed to each `visionError` call.
* The three asynchronous system-metric queries (`getCPUUsage`,
  `getMemoryUsage`, `getNetworkStats`) shell out to the host and are external
  collaborators; each is modelled as an input of type `Except String ℚ`
  (a resolved value or a rejection message), and the `.catch` handlers of
  `getVisionStats` are translated as a match substituting 0 on `error`.
* The mutable `this.stats` record is threaded explicitly: each method is a
  function from the pre-state to the post-state (paired with its return
  value for `getVisionStats`).
* A second, reference-level model (`Store`, `StatsRef`, …) captures the
  JavaScript heap semantics of the `lastErrors` array object, which the
  value-level model cannot express: array variables hold references, and
  `lastErrors: this.stats.lastErrors` in the returned object literal copies
  the reference, not the array.
-/

namespace Vision

/-- ErrorLog record of src/unnamed/part_000: `timestamp` (a `Date`, modelled
as a clock value), `method`, `path`, and the error message text. -/
structure ErrorLog where
  timestamp : Nat
  method : String
  path : String
  error : String
deriving Repr, DecidableEq

/-- The Stats record of src/unnamed/part_000, the single mutable state of the
`Vision` class. -/
structure Stats where
  requestCount : ℚ
  errorCount : ℚ
  totalLatency : ℚ
  dbQueryCount : ℚ
  dbErrorCount : ℚ
  dbTotalLatency : ℚ
  lastErrors : List ErrorLog
deriving Repr, DecidableEq

/-- The `Vision` constructor (main.ts lines 8–18): every counter zero and an
empty error log. -/
def initStats : Stats :=
  { requestCount := 0
    errorCount := 0
    totalLatency := 0
    dbQueryCount := 0
    dbErrorCount := 0
    dbTotalLatency := 0
    lastErrors := [] }

/-- `visionRequest(duration)` (main.ts lines 30–33): increment `requestCount`,
add `duration` to `totalLatency`. -/
def visionRequest (s : Stats) (duration : ℚ) : Stats :=
  { s with
    requestCount := s.requestCount + 1
    totalLatency := s.totalLatency + duration }

/-- JavaScript truthiness coercion `x ? x : ''` applied to an optional string
argument: `undefined` and the empty string are falsy, every other string is
truthy. -/
def strOrEmpty : Option String → String
  | none => ""
  | some m => if m = "" then "" else m

/-- The arguments of one `visionError(err, method?, path?)` call, together
with the clock value observed by its `new Date()`. -/
structure ErrCall where
  message : String
  method : Option String
  path : Option String
  now : Nat
deriving Repr, DecidableEq

/-- The ErrorLog literal built inside `visionError` (main.ts lines 49–54). -/
def mkErrLog (c : ErrCall) : ErrorLog :=
  { timestamp := c.now
    method := strOrEmpty c.method
    path := strOrEmpty c.path
    error := c.message }

/-- `visionError(err, method?, path?)` (main.ts lines 46–62): increment
`errorCount`; build the ErrorLog; if `lastErrors.length >= 10`, `shift()`
(drop the head); then `push` the new entry. -/
def visionError (s : Stats) (c : ErrCall) : Stats :=
  let errLog := mkErrLog c
  let evicted := if s.lastErrors.length ≥ 10 then s.lastErrors.tail else s.lastErrors
  { s with
    errorCount := s.errorCount + 1
    lastErrors := evicted ++ [errLog] }

/-- `visionDBQuery(duration)` (main.ts lines 72–75): increment `dbQueryCount`,
add `duration` to `dbTotalLatency`. -/
def visionDBQuery (s : Stats) (duration : ℚ) : Stats :=
  { s with
    dbQueryCount := s.dbQueryCount + 1
    dbTotalLatency := s.dbTotalLatency + duration }

/-- `visionDBError()` (main.ts lines 82–84): increment `dbErrorCount`. -/
def visionDBError (s : Stats) : Stats :=
  { s with dbErrorCount := s.dbErrorCount + 1 }

/-- The `requests` group of MonitoringResponse (src/unnamed/part_000). -/
structure RequestsGroup where
  total : ℚ
  errors : ℚ
  successRate : ℚ
  avgLatencyMs : ℚ
deriving Repr, DecidableEq

/-- The `database` group of MonitoringResponse (src/unnamed/part_000). -/
structure DatabaseGroup where
  totalQueries : ℚ
  errors : ℚ
  avgLatencyMs : ℚ
deriving Repr, DecidableEq

/-- The `system` group of MonitoringResponse (src/unnamed/part_000). -/
structure SystemGroup where
  cpuUsage : ℚ
  memoryUsage : ℚ
  networkRecv : ℚ
deriving Repr, DecidableEq

/-- MonitoringResponse (src/unnamed/part_000); the `lastErrors?` field is
optional in the TypeScript type, hence `Option` here. -/
structure MonitoringResponse where
  requests : RequestsGroup
  database : DatabaseGroup
  system : SystemGroup
  lastErrors : Option (List ErrorLog)
deriving Repr, DecidableEq

/-- The `.catch((err) => { console.error(...); return 0; })` handler attached
to each system-metric promise in `getVisionStats` (main.ts lines 135–150):
a resolved value passes through, a rejection becomes 0. -/
def catchZero : Except String ℚ → ℚ
  | .ok v => v
  | .error _ => 0

/-- `getVisionStats()` (main.ts lines 134–182), with the three system-metric
promise outcomes as inputs. Returns the assembled MonitoringResponse paired
with the post-state of `this.stats`; the method body assigns to no field of
`this.stats`, so the post-state is the pre-state. -/
def getVisionStats (s : Stats) (cpuRes memRes netRes : Except String ℚ) :
    MonitoringResponse × Stats :=
  let cpuUsage := catchZero cpuRes
  let memoryUsage := catchZero memRes
  let networkRecv := catchZero netRes
  ({ requests :=
      { total := s.requestCount
        errors := s.errorCount
        successRate :=
          if s.requestCount = 0 then 0
          else (s.requestCount - s.errorCount) / s.requestCount * 100
        avgLatencyMs :=
          if s.requestCount = 0 then 0
          else s.totalLatency / s.requestCount }
     database :=
      { totalQueries := s.dbQueryCount
        errors := s.dbErrorCount
        avgLatencyMs :=
          if s.dbQueryCount = 0 then 0
          else s.dbTotalLatency / s.dbQueryCount }
     system :=
      { cpuUsage := cpuUsage
        memoryUsage := memoryUsage
        networkRecv := networkRecv }
     lastErrors := some s.lastErrors }, s)

/-- One invocation of a public method of the `Vision` class, with the
external inputs (durations, error payloads, clock values, system-metric
outcomes) it consumes. -/
inductive Op where
  | request (duration : ℚ)
  | error (c : ErrCall)
  | dbQuery (duration : ℚ)
  | dbError
  | stats (cpuRes memRes netRes : Except String ℚ)
deriving Repr

/-- Effect of one method invocation on the aggregator state. -/
def applyOp (s : Stats) : Op → Stats
  | .request d => visionRequest s d
  | .error c => visionError s c
  | .dbQuery d => visionDBQuery s d
  | .dbError => visionDBError s
  | .stats c m n => (getVisionStats s c m n).2

/-- Run a sequence of method invocations from a state. -/
def run (s : Stats) : List Op → Stats
  | [] => s
  | op :: ops => run (applyOp s op) ops

/-- Run a sequence of `visionRequest` calls. -/
def runRequests (s : Stats) : List ℚ → Stats
  | [] => s
  | d :: ds => runRequests (visionRequest s d) ds

/-- Run a sequence of `visionError` calls. -/
def runErrors (s : Stats) : List ErrCall → Stats
  | [] => s
  | c :: cs => runErrors (visionError s c) cs

/-- The suffix of the last `n` elements of an ErrorLog list. -/
def lastN (n : Nat) (l : List ErrorLog) : List ErrorLog := l.drop (l.length - n)

/-- A JavaScript array reference: at the reference level, arrays of ErrorLog
are heap objects and a field of array type holds an index into the store. -/
abbrev ArrayRef := Nat

/-- The heap of ErrorLog array objects. -/
structure Store where
  arrays : List (List ErrorLog)
deriving Repr, DecidableEq

/-- Read the array object a reference denotes. -/
def Store.read (st : Store) (r : ArrayRef) : List ErrorLog := st.arrays.getD r []

/-- Overwrite the contents of the array object a reference denotes (the heap
effect of in-place mutators such as `push` and `shift`). -/
def Store.write (st : Store) (r : ArrayRef) (l : List ErrorLog) : Store :=
  ⟨st.arrays.set r l⟩

/-- Allocate a fresh array object (an `[]` literal). -/
def Store.alloc (st : Store) (l : List ErrorLog) : Store × ArrayRef :=
  (⟨st.arrays ++ [l]⟩, st.arrays.length)

/-- Stats at the reference level: `lastErrors` holds a reference to a heap
array object, as the JavaScript field `this.stats.lastErrors` does. -/
structure StatsRef where
  requestCount : ℚ
  errorCount : ℚ
  totalLatency : ℚ
  dbQueryCount : ℚ
  dbErrorCount : ℚ
  dbTotalLatency : ℚ
  lastErrors : ArrayRef
deriving Repr, DecidableEq

/-- The `Vision` constructor at the reference level (main.ts lines 8–18):
allocate the `[]` literal and store its reference in `lastErrors`. -/
def mkVisionRef (st : Store) : Store × StatsRef :=
  let p := st.alloc []
  (p.1,
   { requestCount := 0
     errorCount := 0
     totalLatency := 0
     dbQueryCount := 0
     dbErrorCount := 0
     dbTotalLatency := 0
     lastErrors := p.2 })

/-- `visionError` at the reference level (main.ts lines 46–62): the
`shift`/`push` pair mutates, in place, the array object that
`this.stats.lastErrors` references. -/
def visionErrorRef (st : Store) (s : StatsRef) (c : ErrCall) : Store × StatsRef :=
  let arr := st.read s.lastErrors
  let evicted := if arr.length ≥ 10 then arr.tail else arr
  (st.write s.lastErrors (evicted ++ [mkErrLog c]),
   { s with errorCount := s.errorCount + 1 })

/-- MonitoringResponse at the reference level: its `lastErrors` field holds
an array reference (or none), matching the optional array-typed field of the
TypeScript type. -/
structure MonitoringResponseRef where
  requests : RequestsGroup
  database : DatabaseGroup
  system : SystemGroup
  lastErrors : Option ArrayRef
deriving Repr, DecidableEq

/-- `getVisionStats` at the reference level (main.ts lines 134–182): the
object literal's `lastErrors: this.stats.lastErrors` copies the reference
held by `this.stats.lastErrors` into the response — not the array object. -/
def getVisionStatsRef (s : StatsRef)
    (cpuRes memRes netRes : Except String ℚ) : MonitoringResponseRef :=
  let cpuUsage := catchZero cpuRes
  let memoryUsage := catchZero memRes
  let networkRecv := catchZero netRes
  { requests :=
      { total := s.requestCount
        errors := s.errorCount
        successRate :=
          if s.requestCount = 0 then 0
          else (s.requestCount - s.errorCount) / s.requestCount * 100
        avgLatencyMs :=
          if s.requestCount = 0 then 0
          else s.totalLatency / s.requestCount }
    database :=
      { totalQueries := s.dbQueryCount
        errors := s.dbErrorCount
        avgLatencyMs :=
          if s.dbQueryCount = 0 then 0
          else s.dbTotalLatency / s.dbQueryCount }
    system :=
      { cpuUsage := cpuUsage
        memoryUsage := memoryUsage
        networkRecv := networkRecv }
    lastErrors := some s.lastErrors }

/-- A caller mutating the sequence returned by `getVisionStats`: `push` one
entry onto the array object the response's `lastErrors` field references. -/
def pushOnResponse (st : Store) (r : MonitoringResponseRef) (x : ErrorLog) : Store :=
  match r.lastErrors with
  | some ref => st.write ref (st.read ref ++ [x])
  | none => st

/-- A concrete `visionError` call used to exhibit aliasing. -/
def exampleCall : ErrCall :=
  { message := "boom", method := some "GET", path := some "/a", now := 0 }

/-- A concrete entry a caller pushes onto the returned sequence. -/
def pushedLog : ErrorLog :=
  { timestamp := 1, method := "X", path := "Y", error := "injected" }

theorem runRequests_counts (ds : List ℚ) : ∀ s : Stats,
    (runRequests s ds).requestCount = s.requestCount + ds.length ∧
    (runRequests s ds).totalLatency = s.totalLatency + ds.sum := by
  induction ds with
  | nil => intro s; simp [runRequests]
  | cons d ds ih =>
    intro s
    have h := ih (visionRequest s d)
    simp only [runRequests] at h ⊢
    rcases h with ⟨h1, h2⟩
    refine ⟨?_, ?_⟩
    · rw [h1]; simp [visionRequest]; ring
    · rw [h2]; simp [visionRequest]; ring

/-- C6: a sequence of N `visionRequest` calls from the fresh state yields
`requestCount = N` and `totalLatency = Σ dᵢ`; each single call increments
`requestCount` by exactly 1 and adds its duration to `totalLatency`. -/
theorem visionRequest_accumulates (ds : List ℚ) (s : Stats) (d : ℚ) :
    ((runRequests initStats ds).requestCount = ds.length ∧
      (runRequests initStats ds).totalLatency = ds.sum) ∧
    ((visionRequest s d).requestCount = s.requestCount + 1 ∧
      (visionRequest s d).totalLatency = s.totalLatency + d) := by
  refine ⟨?_, by simp [visionRequest]⟩
  have h := runRequests_counts ds initStats
  simpa [initStats] using h

theorem runErrors_errorCount (cs : List ErrCall) : ∀ s : Stats,
    (runErrors s cs).errorCount = s.errorCount + cs.length := by
  induction cs with
  | nil => intro s; simp [runErrors]
  | cons c cs ih =>
    intro s
    simp only [runErrors]
    rw [ih]
    simp [visionError]
    ring

theorem lastN_cons (n : Nat) (a : ErrorLog) (l : List ErrorLog) (h : n ≤ l.length) :
    lastN n (a :: l) = lastN n l := by
  unfold lastN
  have heq : l.length + 1 - n = (l.length - n) + 1 := by omega
  simp only [List.length_cons, heq, List.drop_succ_cons]

theorem runErrors_lastErrors (cs : List ErrCall) : ∀ s : Stats,
    s.lastErrors.length ≤ 10 →
    (runErrors s cs).lastErrors = lastN 10 (s.lastErrors ++ cs.map mkErrLog) := by
  induction cs with
  | nil =>
    intro s h
    simp [runErrors, lastN, Nat.sub_eq_zero_of_le h]
  | cons c cs ih =>
    intro s h
    simp only [runErrors, List.map_cons]
    by_cases h10 : 10 ≤ s.lastErrors.length
    · have hlen : s.lastErrors.length = 10 := le_antisymm h h10
      have hve : (visionError s c).lastErrors = s.lastErrors.tail ++ [mkErrLog c] := by
        simp [visionError, h10]
      have hle : (visionError s c).lastErrors.length ≤ 10 := by
        rw [hve]; simp; omega
      obtain ⟨hd, tl, hL⟩ : ∃ hd tl, s.lastErrors = hd :: tl := by
        cases hcase : s.lastErrors with
        | nil => rw [hcase] at hlen; simp at hlen
        | cons a b => exact ⟨a, b, rfl⟩
      have htl : tl.length = 9 := by
        rw [hL] at hlen; simpa using hlen
      rw [ih (visionError s c) hle, hve, hL]
      have hrw : lastN 10 ((hd :: tl) ++ mkErrLog c :: cs.map mkErrLog) =
          lastN 10 (tl ++ mkErrLog c :: cs.map mkErrLog) := by
        rw [List.cons_append]
        exact lastN_cons 10 hd _ (by simp [htl]; omega)
      rw [hrw]
      simp [List.append_assoc]
    · have hve : (visionError s c).lastErrors = s.lastErrors ++ [mkErrLog c] := by
        simp [visionError, h10]
      have hle : (visionError s c).lastErrors.length ≤ 10 := by
        rw [hve]; simp; omega
      rw [ih (visionError s c) hle, hve]
      simp [List.append_assoc]

/-- C2: after any sequence of k `visionError` calls from the fresh state,
`errorCount = k` and `lastErrors` holds exactly `min k 10` entries, namely the
ErrorLog records of the `min k 10` most recent calls in chronological
oldest-first order, each built by `mkErrLog` from the supplied method, path
(empty string if absent) and error message. -/
theorem visionError_log_spec (cs : List ErrCall) :
    (runErrors initStats cs).errorCount = cs.length ∧
    (runErrors initStats cs).lastErrors.length = min cs.length 10 ∧
    (runErrors initStats cs).lastErrors = (cs.map mkErrLog).drop (cs.length - 10) := by
  have h1 := runErrors_errorCount cs initStats
  have h2 := runErrors_lastErrors cs initStats (by simp [initStats])
  simp only [initStats] at h1 h2 ⊢
  simp only [lastN, List.nil_append, List.length_map] at h2
  refine ⟨by simpa using h1, ?_, h2⟩
  rw [h2]
  simp only [List.length_drop, List.length_map]
  omega

theorem applyOp_lastErrors_le (s : Stats) (op : Op)
    (h : s.lastErrors.length ≤ 10) : (applyOp s op).lastErrors.length ≤ 10 := by
  cases op with
  | request d => simpa [applyOp, visionRequest] using h
  | dbQuery d => simpa [applyOp, visionDBQuery] using h
  | dbError => simpa [applyOp, visionDBError] using h
  | stats c m n => simpa [applyOp, getVisionStats] using h
  | error c =>
    simp only [applyOp, visionError]
    by_cases h10 : 10 ≤ s.lastErrors.length
    · have := List.length_tail s.lastErrors
      simp [h10]
      omega
    · simp [h10]
      omega

theorem run_lastErrors_le (ops : List Op) : ∀ s : Stats,
    s.lastErrors.length ≤ 10 → (run s ops).lastErrors.length ≤ 10 := by
  induction ops with
  | nil => intro s h; simpa [run] using h
  | cons op ops ih =>
    intro s h
    simp only [run]
    exact ih (applyOp s op) (applyOp_lastErrors_le s op h)

/-- C3: in every state reachable from the fresh aggregator by any sequence of
public method invocations (`visionRequest`, `visionError`, `visionDBQuery`,
`visionDBError`, `getVisionStats`), the error log holds at most 10 entries. -/
theorem lastErrors_bounded (ops : List Op) :
    (run initStats ops).lastErrors.length ≤ 10 :=
  run_lastErrors_le ops initStats (by simp [initStats])

/-- C4: the `successRate` of the `requests` group of any snapshot is 0 when
`requestCount = 0` and `(requestCount - errorCount) / requestCount * 100`
otherwise; with `requestCount = 10` and `errorCount = 2` it is 80. -/
theorem getVisionStats_successRate (s : Stats) (cpuRes memRes netRes : Except String ℚ) :
    ((getVisionStats s cpuRes memRes netRes).1.requests.successRate =
      if s.requestCount = 0 then 0
      else (s.requestCount - s.errorCount) / s.requestCount * 100) ∧
    (getVisionStats { initStats with requestCount := 10, errorCount := 2 }
        cpuRes memRes netRes).1.requests.successRate = 80 := by
  refine ⟨rfl, ?_⟩
  norm_num [getVisionStats, initStats]

/-- C7: the `avgLatencyMs` of the `requests` group of any snapshot is 0 when
`requestCount = 0` and `totalLatency / requestCount` otherwise; the
`avgLatencyMs` of the `database` group is 0 when `dbQueryCount = 0` and
`dbTotalLatency / dbQueryCount` otherwise; with `dbQueryCount = 4` and
`dbTotalLatency = 200` the database average is 50. -/
theorem getVisionStats_avgLatency (s : Stats) (cpuRes memRes netRes : Except String ℚ) :
    ((getVisionStats s cpuRes memRes netRes).1.requests.avgLatencyMs =
      if s.requestCount = 0 then 0 else s.totalLatency / s.requestCount) ∧
    ((getVisionStats s cpuRes memRes netRes).1.database.avgLatencyMs =
      if s.dbQueryCount = 0 then 0 else s.dbTotalLatency / s.dbQueryCount) ∧
    (getVisionStats { initStats with dbQueryCount := 4, dbTotalLatency := 200 }
        cpuRes memRes netRes).1.database.avgLatencyMs = 50 := by
  refine ⟨rfl, rfl, ?_⟩
  norm_num [getVisionStats, initStats]

/-- C5: `getVisionStats` is a total function of the state and the three
system-metric outcomes — a rejected metric promise is caught by its `.catch`
handler and never propagates. When exactly one of the three queries fails,
that `system` field is 0 while the other two carry the provider's resolved
values; the `requests`, `database` and `lastErrors` parts of the response do
not depend on the metric outcomes at all. -/
theorem getVisionStats_partial_failure (s : Stats) (e : String) (c m n : ℚ)
    (cpuRes memRes netRes : Except String ℚ) :
    ((getVisionStats s (.error e) (.ok m) (.ok n)).1.system =
      { cpuUsage := 0, memoryUsage := m, networkRecv := n }) ∧
    ((getVisionStats s (.ok c) (.error e) (.ok n)).1.system =
      { cpuUsage := c, memoryUsage := 0, networkRecv := n }) ∧
    ((getVisionStats s (.ok c) (.ok m) (.error e)).1.system =
      { cpuUsage := c, memoryUsage := m, networkRecv := 0 }) ∧
    ((getVisionStats s cpuRes memRes netRes).1.requests =
      (getVisionStats s (.ok c) (.ok m) (.ok n)).1.requests) ∧
    ((getVisionStats s cpuRes memRes netRes).1.database =
      (getVisionStats s (.ok c) (.ok m) (.ok n)).1.database) ∧
    ((getVisionStats s cpuRes memRes netRes).1.lastErrors = some s.lastErrors) := by
  exact ⟨rfl, rfl, rfl, rfl, rfl, rfl⟩

/-- C8: `visionDBError` increments `dbErrorCount` by exactly 1 and leaves
every other field of Stats unchanged; in particular it appends nothing to
`lastErrors`. -/
theorem visionDBError_frame (s : Stats) :
    (visionDBError s).dbErrorCount = s.dbErrorCount + 1 ∧
    (visionDBError s).requestCount = s.requestCount ∧
    (visionDBError s).errorCount = s.errorCount ∧
    (visionDBError s).totalLatency = s.totalLatency ∧
    (visionDBError s).dbQueryCount = s.dbQueryCount ∧
    (visionDBError s).dbTotalLatency = s.dbTotalLatency ∧
    (visionDBError s).lastErrors = s.lastErrors := by
  simp [visionDBError]

/-- C9: `getVisionStats` is a pure read of the aggregator state: whatever the
pre-state and whatever the system-metric outcomes, the post-state is exactly
the pre-state (every field of Stats, `lastErrors` included, is unchanged). -/
theorem getVisionStats_pure (s : Stats) (cpuRes memRes netRes : Except String ℚ) :
    (getVisionStats s cpuRes memRes netRes).2 = s := rfl

/-- C10: the MonitoringResponse returned by `getVisionStats` always carries a
present `lastErrors` field equal to the aggregator's current error log, and a
fresh aggregator yields `some []`, not an absent field. -/
theorem getVisionStats_lastErrors_present (s : Stats)
    (cpuRes memRes netRes : Except String ℚ) :
    (getVisionStats s cpuRes memRes netRes).1.lastErrors = some s.lastErrors ∧
    (getVisionStats initStats cpuRes memRes netRes).1.lastErrors = some ([] : List ErrorLog) := by
  exact ⟨rfl, rfl⟩

/-- C1 counterexample: the claim fails on the code. Construct a fresh
aggregator, record one error, take a snapshot, and push one entry onto the
sequence the snapshot returned: the aggregator's internal `lastErrors` array
is changed by that push, because `getVisionStats` returns the live array
(`lastErrors: this.stats.lastErrors`), not a copy. -/
theorem snapshot_lastErrors_alias_counterexample :
    ¬ ((pushOnResponse (visionErrorRef (mkVisionRef ⟨[]⟩).1 (mkVisionRef ⟨[]⟩).2 exampleCall).1
          (getVisionStatsRef (visionErrorRef (mkVisionRef ⟨[]⟩).1 (mkVisionRef ⟨[]⟩).2 exampleCall).2
            (.ok 0) (.ok 0) (.ok 0)) pushedLog).read
        (visionErrorRef (mkVisionRef ⟨[]⟩).1 (mkVisionRef ⟨[]⟩).2 exampleCall).2.lastErrors =
      (visionErrorRef (mkVisionRef ⟨[]⟩).1 (mkVisionRef ⟨[]⟩).2 exampleCall).1.read
        (visionErrorRef (mkVisionRef ⟨[]⟩).1 (mkVisionRef ⟨[]⟩).2 exampleCall).2.lastErrors) := by
  decide

/-- C1 (amended): the `lastErrors` sequence in the MonitoringResponse
returned by `getVisionStats` is the aggregator's live internal sequence —
the response carries the very array reference stored in
`this.stats.lastErrors`, not a copy — so a caller's push on the returned
sequence lands on the internal array and is observed by subsequent
snapshots. -/
theorem snapshot_lastErrors_aliases_internal (st : Store) (s : StatsRef)
    (cpuRes memRes netRes : Except String ℚ) (x : ErrorLog) :
    (getVisionStatsRef s cpuRes memRes netRes).lastErrors = some s.lastErrors ∧
    pushOnResponse st (getVisionStatsRef s cpuRes memRes netRes) x =
      st.write s.lastErrors (st.read s.lastErrors ++ [x]) := by
  exact ⟨rfl, rfl⟩

end Vision
